import Mathlib

/-!
Shallow embedding of `src/QuantumSuperpositionDelay.cpp` (a VCV Rack module:
a six-buffer stochastic delay engine).  Floating-point arithmetic is modelled
by exact rational arithmetic (`ℚ`); machine indices (`int`) are modelled by
`ℕ` with explicit `% 16000`.  The C library exponential `std::exp` is external
to the repository and is modelled as a parameter `e : ℚ → ℚ` assumed positive
where a theorem needs it.  Randomness (`fastRandom`, line 121) is modelled as
an explicit stream `rnd : ℕ → ℚ` of uniform-[0,1) draws, consumed in program
order, following the spec's design note that the generator is injectable.
-/

namespace QSD

/-- `rack::clamp` (used throughout the source): `max lo (min x hi)`. -/
def clamp (x lo hi : ℚ) : ℚ := max lo (min x hi)

/-- `NUM_BUFFERS = 6` (line 37). -/
abbrev numBuffers : ℕ := 6

/-- `MAX_DELAY_SAMPLES = 96000` (line 38). -/
abbrev maxDelaySamples : ℕ := 96000

/-- `BUFFER_SIZE = MAX_DELAY_SAMPLES / NUM_BUFFERS = 16000` (line 39). -/
abbrev bufferSize : ℕ := maxDelaySamples / numBuffers

/-- The state of one `QuantumSuperpositionDelay` engine instance: the member
variables of the struct (lines 41-67), together with the two function-local
`static` variables (`peakCenter`, line 161, and `controlDivider`, line 239),
the Schmitt trigger's hysteresis memory, and the observable outputs (the
light brightness values and the emitted output voltage). -/
structure Engine where
  delayBuffers : Fin 6 → ℕ → ℚ
  writeIndex : ℕ
  readIndices : Fin 6 → ℕ
  probWeights : Fin 6 → ℚ
  targetWeights : Fin 6 → ℚ
  weightVelocity : Fin 6 → ℚ
  delayTimes : Fin 6 → ℚ
  feedbackLevels : Fin 6 → ℚ
  entanglement : Fin 6 → ℚ
  baseDelayTime : ℚ
  spreadAmount : ℚ
  probabilityShape : ℚ
  globalFeedback : ℚ
  dryWetMix : ℚ
  chaosAmount : ℚ
  collapseLight : ℚ
  peakCenter : ℚ
  controlDivider : ℕ
  trigState : Bool
  lights : Fin 7 → ℚ
  output : ℚ

/-- The per-call external inputs of `process`: the host sample rate, the six
parameter (pot) values and the five input port voltages. -/
structure Inputs where
  sampleRate : ℚ
  potTime : ℚ
  potSpread : ℚ
  potProb : ℚ
  potFeedback : ℚ
  potMix : ℚ
  potChaos : ℚ
  cvProb : ℚ
  cvSpread : ℚ
  cvFeedback : ℚ
  trigVolt : ℚ
  audioIn : ℚ

/-- Constructor state (lines 54-64, 70-106) followed by
`initializeQuantumState` (lines 108-119): zeroed buffers, equal weights `1/6`,
zero velocity, the initial delay spread `1000 + 1500 i`, feedback level `0.3`
per buffer, zero entanglement, the default control values of lines 55-60. -/
def initEngine : Engine where
  delayBuffers := fun _ _ => 0
  writeIndex := 0
  readIndices := fun _ => 0
  probWeights := fun _ => 1/6
  targetWeights := fun _ => 1/6
  weightVelocity := fun _ => 0
  delayTimes := fun i => 1000 + (i : ℚ) * 1500
  feedbackLevels := fun _ => 3/10
  entanglement := fun _ => 0
  baseDelayTime := 1/2
  spreadAmount := 1/2
  probabilityShape := 1/2
  globalFeedback := 3/10
  dryWetMix := 1/2
  chaosAmount := 1/10
  collapseLight := 0
  peakCenter := 3
  controlDivider := 0
  trigState := false
  lights := fun _ => 0
  output := 0

/-- `updateControls` (lines 125-146): combine each pot with its CV input
(divided by 10) where a CV port exists, clamping spread and shape to [0,1],
feedback to [0,0.95]; `baseDelayTime` is clamped without a CV term; the mix
and chaos snapshots are taken from the pot without clamping. -/
def updateControls (ins : Inputs) (st : Engine) : Engine :=
  { st with
    baseDelayTime := clamp ins.potTime 0 1
    spreadAmount := clamp (ins.potSpread + ins.cvSpread / 10) 0 1
    probabilityShape := clamp (ins.potProb + ins.cvProb / 10) 0 1
    globalFeedback := clamp (ins.potFeedback + ins.cvFeedback / 10) 0 (95/100)
    dryWetMix := ins.potMix
    chaosAmount := ins.potChaos }

/-- Lines 152-156: the `probabilityShape < 0.5` branch of
`updateProbabilityWeights` blends the previous target toward the uniform
distribution with blend factor `uniformity = (0.5 - shape) * 2`. -/
def uniformityBlend (shape : ℚ) (target : Fin 6 → ℚ) : Fin 6 → ℚ :=
  fun i => (1 - (1/2 - shape) * 2) * target i + ((1/2 - shape) * 2) / 6

/-- Lines 161-163: the random walk of the `static float peakCenter`,
clamped to `[0, NUM_BUFFERS - 1]`. -/
def wanderedPeak (r chaos pc : ℚ) : ℚ :=
  clamp (pc + (r - 1/2) * chaos * (1/2)) 0 5

/-- Lines 166-169: the unnormalized peaked distribution
`exp (-|i - peakCenter| * peakedness * 2)` with
`peakedness = (shape - 0.5) * 2`, with `e` standing for `std::exp`. -/
def peakedRaw (e : ℚ → ℚ) (shape pc : ℚ) : Fin 6 → ℚ :=
  fun i => e (-(|(i : ℚ) - pc|) * ((shape - 1/2) * 2) * 2)

/-- Line 169: `totalWeight`, the peaked-distribution normalization divisor. -/
def peakedTotal (e : ℚ → ℚ) (shape pc : ℚ) : ℚ :=
  ∑ i, peakedRaw e shape pc i

/-- How many random draws the branch of lines 151-176 consumes before the
chaos loop: one (the peak walk) in the peaked branch, none otherwise. -/
def chaosOffset (st : Engine) : ℕ :=
  if st.probabilityShape < 1/2 then 0 else 1

/-- Lines 151-176: the candidate weights before chaos injection.  In the
peaked branch each raw weight is divided by `totalWeight` (lines 172-175). -/
def preChaos (e : ℚ → ℚ) (rnd : ℕ → ℚ) (st : Engine) : Fin 6 → ℚ := fun i =>
  if st.probabilityShape < 1/2 then
    uniformityBlend st.probabilityShape st.targetWeights i
  else
    peakedRaw e st.probabilityShape (wanderedPeak (rnd 0) st.chaosAmount st.peakCenter) i /
      peakedTotal e st.probabilityShape (wanderedPeak (rnd 0) st.chaosAmount st.peakCenter)

/-- Lines 179-182: symmetric chaos noise `(rand - 0.5) * chaosAmount * 0.1`
added to each weight, each result clamped to `[0,1]`. -/
def chaosAdded (rnd : ℕ → ℚ) (k0 : ℕ) (chaos : ℚ) (w : Fin 6 → ℚ) : Fin 6 → ℚ :=
  fun i => clamp (w i + (rnd (k0 + (i : ℕ)) - 1/2) * chaos * (1/10)) 0 1

/-- `updateProbabilityWeights` (lines 148-199): recompute the target vector
(branch, chaos injection, renormalization by the post-chaos `sum`), then run
the velocity smoothing of lines 194-198 on the current weights. -/
def updateProbabilityWeights (e : ℚ → ℚ) (rnd : ℕ → ℚ) (st : Engine) : Engine :=
  let w2 := chaosAdded rnd (chaosOffset st) st.chaosAmount (preChaos e rnd st)
  let s := ∑ i, w2 i
  let tw : Fin 6 → ℚ := fun i => w2 i / s
  let vel : Fin 6 → ℚ := fun i =>
    st.weightVelocity i * (9/10) + (tw i - st.probWeights i) * (1/10)
  let pw : Fin 6 → ℚ := fun i => st.probWeights i + vel i * (1/20)
  { st with
    peakCenter :=
      if st.probabilityShape < 1/2 then st.peakCenter
      else wanderedPeak (rnd 0) st.chaosAmount st.peakCenter
    targetWeights := tw
    weightVelocity := vel
    probWeights := pw }

/-- `updateDelayTimes` (lines 201-220): `maxDelaySamples` is the base-delay
control mapped through 0..2000 ms at the current sample rate and clamped to
`[10, BUFFER_SIZE - 1]`; each delay is `min + t * (max - min) * spread` plus
jitter `(rand - 0.5) * sampleRate * 0.005 * chaos`, clamped to
`[1, BUFFER_SIZE - 1]`; the read index is recomputed from the truncated
delay (the `(int)` cast truncates toward zero, which on these values, all
at least 1, is the floor). -/
def updateDelayTimes (sampleRate : ℚ) (rnd : ℕ → ℚ) (k0 : ℕ) (st : Engine) : Engine :=
  let minD : ℚ := 10
  let maxD : ℚ := clamp (st.baseDelayTime * 2000 / 1000 * sampleRate) minD 15999
  let dts : Fin 6 → ℚ := fun i =>
    clamp (minD + ((i : ℚ) / 5) * ((maxD - minD) * st.spreadAmount) +
      (rnd (k0 + (i : ℕ)) - 1/2) * sampleRate * (5/1000) * st.chaosAmount) 1 15999
  let ris : Fin 6 → ℕ := fun i =>
    (st.writeIndex + 16000 - (⌊dts i⌋).toNat) % 16000
  { st with
    delayTimes := dts
    readIndices := ris }

/-- `handleQuantumCollapse` (lines 222-235): pick `dominantBuffer` by
truncating `fastRandom() * NUM_BUFFERS` (for the generator's non-negative
outputs the `int` cast is the floor), give it target weight `0.7` and every
other buffer `(1 - 0.7) / (NUM_BUFFERS - 1)`, and set the collapse light
to 1. -/
def handleQuantumCollapse (r : ℚ) (st : Engine) : Engine :=
  let dominantBuffer : ℤ := ⌊r * 6⌋
  { st with
    targetWeights := fun i =>
      if ((i : ℕ) : ℤ) = dominantBuffer then 7/10 else (1 - 7/10) / 5
    collapseLight := 1 }

/-- Modelled from the spec: the host SDK's `dsp::SchmittTrigger` (line 63) is
not part of this repository; per the spec it is a rising-edge detector with
hysteresis, firing when the input crosses the high threshold while the state
is low, and re-arming when the input falls to the low threshold.  Returns
`(fired, new state)`. -/
def schmittProcess (state : Bool) (v lo hi : ℚ) : Bool × Bool :=
  if state then (false, !(v ≤ lo))
  else if hi ≤ v then (true, true)
  else (false, false)

/-- Line 253: the per-sample exponential decay of the collapse light,
`collapseLight -= collapseLight / sampleRate * 5`. -/
def decayCollapseLight (sampleRate x : ℚ) : ℚ := x - x / sampleRate * 5

/-- The mutable state threaded through the per-buffer loop of lines 265-301:
the buffer contents, `outputAccumulator`, the entanglement array and the
buffer activity lights. -/
structure LoopState where
  bufs : Fin 6 → ℕ → ℚ
  acc : ℚ
  ent : Fin 6 → ℚ
  lightsArr : Fin 7 → ℚ

/-- One iteration (buffer `b`) of the loop of lines 267-301: interpolated
read (the `(int)` cast of line 270 is the floor for the non-negative delay
times produced by `updateDelayTimes`), weighted accumulation, feedback with
entanglement writes into every other buffer at `(writeIndex + 10) % 16000`,
self-feedback at `writeIndex`, entanglement energy tracking, and the buffer
activity light. -/
def audioBody (st : Engine) (ls : LoopState) (b : Fin 6) : LoopState :=
  let readIdx := st.readIndices b
  let frac := st.delayTimes b - (⌊st.delayTimes b⌋ : ℚ)
  let readIdxNext := (readIdx + 1) % 16000
  let delayedSample := ls.bufs b readIdx * (1 - frac) + ls.bufs b readIdxNext * frac
  let acc := ls.acc + delayedSample * st.probWeights b
  let feedbackSample := delayedSample * st.globalFeedback * st.feedbackLevels b
  let entangleIndex := (st.writeIndex + 10) % 16000
  let bufs1 : Fin 6 → ℕ → ℚ := fun o =>
    if o = b then ls.bufs o
    else Function.update (ls.bufs o) entangleIndex
      (ls.bufs o entangleIndex + feedbackSample * (ls.ent b * (1/10)))
  let bufs2 := Function.update bufs1 b
    (Function.update (bufs1 b) st.writeIndex (bufs1 b st.writeIndex + feedbackSample))
  let ent := Function.update ls.ent b (ls.ent b * (99/100) + (|delayedSample| / 10) * (1/100))
  let lightsArr := Function.update ls.lightsArr b.succ (st.probWeights b)
  ⟨bufs2, acc, ent, lightsArr⟩

/-- Lines 259-301: write the input sample into every buffer at `writeIndex`
(line 261), then run the per-buffer loop in index order 0..5. -/
def audioLoop (audioIn : ℚ) (st : Engine) : LoopState :=
  let bufs0 : Fin 6 → ℕ → ℚ := fun b =>
    Function.update (st.delayBuffers b) st.writeIndex audioIn
  (List.finRange 6).foldl (audioBody st) ⟨bufs0, 0, st.entanglement, st.lights⟩

/-- Lines 256-311: the audio portion of `process` — buffer write, per-buffer
loop, wet clamp to `[-10, 10]`, the convex dry/wet blend of line 305, the
output voltage, and the advance of the shared write cursor. -/
def audioStage (audioIn : ℚ) (st : Engine) : Engine :=
  let ls := audioLoop audioIn st
  let wetSample := clamp ls.acc (-10) 10
  let mixedOutput := audioIn * (1 - st.dryWetMix) + wetSample * st.dryWetMix
  { st with
    delayBuffers := ls.bufs
    entanglement := ls.ent
    lights := ls.lightsArr
    output := mixedOutput
    writeIndex := (st.writeIndex + 1) % 16000 }

/-- Lines 239-245: the control-rate gate.  The static `controlDivider` is
incremented; on reaching 64 it resets and `updateControls`,
`updateProbabilityWeights`, `updateDelayTimes` run in that order. -/
def tickStage (e : ℚ → ℚ) (ins : Inputs) (rnd : ℕ → ℚ) (st : Engine) : Engine :=
  if st.controlDivider + 1 ≥ 64 then
    let stc := updateControls ins { st with controlDivider := 0 }
    updateDelayTimes ins.sampleRate rnd (chaosOffset stc + 6)
      (updateProbabilityWeights e rnd stc)
  else { st with controlDivider := st.controlDivider + 1 }

/-- Index of the next unconsumed random draw after the control tick: the
tick consumes `chaosOffset + 6` draws in `updateProbabilityWeights` and six
more in `updateDelayTimes`; a skipped tick consumes none. -/
def tickRnds (ins : Inputs) (st : Engine) : ℕ :=
  if st.controlDivider + 1 ≥ 64 then
    chaosOffset (updateControls ins { st with controlDivider := 0 }) + 12
  else 0

/-- Lines 247-250: the collapse trigger check.  The Schmitt trigger processes
the trigger voltage with thresholds 0.1 and 2.0; on a fired edge
`handleQuantumCollapse` runs with the next random draw. -/
def collapseStage (trigVolt r : ℚ) (st : Engine) : Engine :=
  let fr := schmittProcess st.trigState trigVolt (1/10) 2
  if fr.1 then handleQuantumCollapse r { st with trigState := fr.2 }
  else { st with trigState := fr.2 }

/-- Lines 252-254: decay the collapse light and publish it to the collapse
light (index 0). -/
def lightStage (sampleRate : ℚ) (st : Engine) : Engine :=
  let cl := decayCollapseLight sampleRate st.collapseLight
  { st with collapseLight := cl, lights := Function.update st.lights 0 cl }

/-- `process` (lines 237-312): control tick, collapse trigger, light decay,
then the audio path, in source order. -/
def process (e : ℚ → ℚ) (ins : Inputs) (rnd : ℕ → ℚ) (st : Engine) : Engine :=
  audioStage ins.audioIn
    (lightStage ins.sampleRate
      (collapseStage ins.trigVolt (rnd (tickRnds ins st)) (tickStage e ins rnd st)))

/-- `dataToJson` (lines 314-325): the persisted state is the vector of the
six current probability weights. -/
def dataToJson (st : Engine) : List ℚ :=
  (List.finRange 6).map st.probWeights

/-- `dataFromJson` (lines 327-339).  The JSON decoding glue is external
(jansson via the host SDK); it is modelled by `Option (List (Option ℚ))`:
`none` when `json_object_get` finds no `probWeights` value (or a value on
which every `json_array_get` is null, modelled as the empty list), and
`none` entries where `json_array_get` returns null.  Present entries set
both the current and the target weight; absent entries leave both alone. -/
def dataFromJson (weightsJ : Option (List (Option ℚ))) (st : Engine) : Engine :=
  match weightsJ with
  | none => st
  | some l =>
    { st with
      probWeights := fun i =>
        match l.get? (i : ℕ) with
        | some (some v) => v
        | _ => st.probWeights i
      targetWeights := fun i =>
        match l.get? (i : ℕ) with
        | some (some v) => v
        | _ => st.targetWeights i }

/-- The delay-time formula exactly as the spec sentence behind C4 words it:
`maxSamples` is the base-delay control mapped through 0..2000 ms at the
current sample rate — with no clamping of `maxSamples` itself — and only the
final per-buffer value is clamped to `[1, capacity - 1]`. -/
def specDelayTime (sampleRate base spread chaos : ℚ) (rnd : ℕ → ℚ) (k0 : ℕ)
    (i : Fin 6) : ℚ :=
  let minS : ℚ := 10
  let maxS : ℚ := base * 2000 / 1000 * sampleRate
  clamp (minS + ((i : ℚ) / 5) * ((maxS - minS) * spread) +
    (rnd (k0 + (i : ℕ)) - 1/2) * sampleRate * (5/1000) * chaos) 1 15999

/-- A concrete quiet input frame for witnesses and counterexamples: 48 kHz,
the default pot values of lines 73-78, no CV, no trigger voltage, a constant
5 V audio input. -/
def insQuiet : Inputs where
  sampleRate := 48000
  potTime := 1/4
  potSpread := 1/2
  potProb := 1/2
  potFeedback := 3/10
  potMix := 1/2
  potChaos := 1/10
  cvProb := 0
  cvSpread := 0
  cvFeedback := 0
  trigVolt := 0
  audioIn := 5

/-- A concrete engine state whose control snapshot asks for maximum delay:
base delay 1 (2000 ms), full spread, no chaos — all values reachable from
`updateControls` with in-range pots. -/
def stMaxDelay : Engine :=
  { initEngine with baseDelayTime := 1, spreadAmount := 1, chaosAmount := 0 }

/-- `stMaxDelay` immediately after a delay-time recomputation at 48 kHz with
center random draws (zero jitter): buffer 5 gets the full delay 15999
(= capacity - 1), and its read index is `writeIndex + 1` modulo capacity. -/
def stColl : Engine := updateDelayTimes 48000 (fun _ => 1/2) 0 stMaxDelay

/-- `stColl` after one further audio sample (no control tick, no trigger):
the write cursor advances onto the stale read cursor of buffer 5. -/
def stColl1 : Engine := process (fun _ => 1) insQuiet (fun _ => 1/2) stColl

/-- Random stream for the C2 trace: draw index 5 (the chaos perturbation of
buffer 5) always returns 0, every other draw returns 1/2 (no perturbation).
All values lie in [0,1). -/
def rndBias : ℕ → ℚ := fun n => if n = 5 then 0 else 1/2

/-- C2 trace start: the freshly constructed engine with probability shape
0.4995 and chaos 1 — both inside the valid [0,1] control ranges, reachable
through `updateControls`. -/
def stBias : Engine :=
  { initEngine with probabilityShape := 999/2000, chaosAmount := 1 }

/-- The C2 trace: iterated retarget+relax cycles
(`updateProbabilityWeights`) from `stBias` under `rndBias`.  The shape stays
below 0.5, so the peaked branch (and hence the modelled exponential) is
never entered. -/
def weightTrace : ℕ → Engine
  | 0 => stBias
  | n + 1 => updateProbabilityWeights (fun _ => 1) rndBias (weightTrace n)

/-! ## Basic facts about `clamp` -/

theorem le_clamp (x lo hi : ℚ) : lo ≤ clamp x lo hi := le_max_left _ _

theorem clamp_le (x lo hi : ℚ) (h : lo ≤ hi) : clamp x lo hi ≤ hi :=
  max_le h (min_le_right _ _)

theorem min_le_clamp (x lo hi : ℚ) : min x hi ≤ clamp x lo hi := le_max_right _ _

theorem clamp_eq_self (x lo hi : ℚ) (h0 : lo ≤ x) (h1 : x ≤ hi) : clamp x lo hi = x := by
  unfold clamp
  rw [min_eq_left h1, max_eq_right h0]

/-! ## Projection lemmas for the stages of `process` -/

theorem tickStage_dryWetMix (e : ℚ → ℚ) (ins : Inputs) (rnd : ℕ → ℚ) (st : Engine) :
    (tickStage e ins rnd st).dryWetMix =
      if st.controlDivider + 1 ≥ 64 then ins.potMix else st.dryWetMix := by
  unfold tickStage
  split <;> rfl

theorem collapseStage_dryWetMix (v r : ℚ) (st : Engine) :
    (collapseStage v r st).dryWetMix = st.dryWetMix := by
  unfold collapseStage
  dsimp only
  split <;> rfl

theorem lightStage_dryWetMix (s : ℚ) (st : Engine) :
    (lightStage s st).dryWetMix = st.dryWetMix := rfl

theorem audioStage_output (a : ℚ) (st : Engine) :
    (audioStage a st).output =
      a * (1 - st.dryWetMix) + clamp (audioLoop a st).acc (-10) 10 * st.dryWetMix := rfl

theorem blend_bounds (a w m : ℚ) (ha0 : -10 ≤ a) (ha1 : a ≤ 10)
    (hw0 : -10 ≤ w) (hw1 : w ≤ 10) (hm0 : 0 ≤ m) (hm1 : m ≤ 1) :
    -10 ≤ a * (1 - m) + w * m ∧ a * (1 - m) + w * m ≤ 10 := by
  constructor <;> nlinarith

/-- C1: for every process step whose input sample lies in [-10,10] and whose
dry/wet mix lies in [0,1] (both the held snapshot and, because a control tick
replaces the snapshot by the mix pot, the pot value), the emitted output
sample lies in [-10,10]: the accumulated wet signal is hard-clamped to
[-10,10] and the output is the convex blend `input*(1-mix) + wetClamped*mix`. -/
theorem process_output_bounded (e : ℚ → ℚ) (ins : Inputs) (rnd : ℕ → ℚ) (st : Engine)
    (hin0 : -10 ≤ ins.audioIn) (hin1 : ins.audioIn ≤ 10)
    (hmx0 : 0 ≤ st.dryWetMix) (hmx1 : st.dryWetMix ≤ 1)
    (hpm0 : 0 ≤ ins.potMix) (hpm1 : ins.potMix ≤ 1) :
    (∃ wet mix, -10 ≤ wet ∧ wet ≤ 10 ∧ 0 ≤ mix ∧ mix ≤ 1 ∧
      (process e ins rnd st).output = ins.audioIn * (1 - mix) + wet * mix) ∧
    -10 ≤ (process e ins rnd st).output ∧ (process e ins rnd st).output ≤ 10 := by
  have hm : 0 ≤ (lightStage ins.sampleRate (collapseStage ins.trigVolt
        (rnd (tickRnds ins st)) (tickStage e ins rnd st))).dryWetMix ∧
      (lightStage ins.sampleRate (collapseStage ins.trigVolt
        (rnd (tickRnds ins st)) (tickStage e ins rnd st))).dryWetMix ≤ 1 := by
    rw [lightStage_dryWetMix, collapseStage_dryWetMix, tickStage_dryWetMix]
    split
    · exact ⟨hpm0, hpm1⟩
    · exact ⟨hmx0, hmx1⟩
  have hw0 : -10 ≤ clamp (audioLoop ins.audioIn (lightStage ins.sampleRate
      (collapseStage ins.trigVolt (rnd (tickRnds ins st))
        (tickStage e ins rnd st)))).acc (-10) 10 := le_clamp _ _ _
  have hw1 : clamp (audioLoop ins.audioIn (lightStage ins.sampleRate
      (collapseStage ins.trigVolt (rnd (tickRnds ins st))
        (tickStage e ins rnd st)))).acc (-10) 10 ≤ 10 := clamp_le _ _ _ (by norm_num)
  refine ⟨⟨_, _, hw0, hw1, hm.1, hm.2, rfl⟩, ?_⟩
  exact blend_bounds _ _ _ hin0 hin1 hw0 hw1 hm.1 hm.2

/-! ## Delay-time scheduling -/

theorem delayTimes_bounds (sampleRate : ℚ) (rnd : ℕ → ℚ) (k0 : ℕ) (st : Engine)
    (i : Fin 6) :
    1 ≤ (updateDelayTimes sampleRate rnd k0 st).delayTimes i ∧
    (updateDelayTimes sampleRate rnd k0 st).delayTimes i ≤ 15999 :=
  ⟨le_clamp _ _ _, clamp_le _ _ _ (by norm_num)⟩

/-- C4 (amended): `updateDelayTimes` computes, for every buffer index i with
t = i/(N-1), `delayTime[i] = minSamples + t*(maxSamples-minSamples)*spread`
plus jitter `(random-0.5)*sampleRate*0.005*chaos`, then clamps it to
`[1, capacity-1]`, where `maxSamples` is the base-delay control mapped
through 0..2000 ms at the current sample rate **and itself clamped to
[minSamples, capacity-1]** and minSamples is 10 samples; consequently for
all inputs and any sample rate every computed delay length lies in
`[1, capacity-1]`. -/
theorem delay_times_formula_bounds (sampleRate : ℚ) (rnd : ℕ → ℚ) (k0 : ℕ)
    (st : Engine) (i : Fin 6) :
    (updateDelayTimes sampleRate rnd k0 st).delayTimes i =
      clamp (10 + ((i : ℚ) / 5) *
          ((clamp (st.baseDelayTime * 2000 / 1000 * sampleRate) 10 15999 - 10) *
            st.spreadAmount) +
        (rnd (k0 + (i : ℕ)) - 1/2) * sampleRate * (5/1000) * st.chaosAmount) 1 15999 ∧
    1 ≤ (updateDelayTimes sampleRate rnd k0 st).delayTimes i ∧
    (updateDelayTimes sampleRate rnd k0 st).delayTimes i ≤ 15999 :=
  ⟨rfl, delayTimes_bounds sampleRate rnd k0 st i⟩

/-- C3 (amended): immediately after every `updateDelayTimes` call, each read
cursor equals `(writeIndex - floor(delayLength) + capacity) mod capacity`
(with the write cursor as of that call) and lies in `[0, capacity)`.
Between control ticks the write cursor advances while the read cursors stay,
so the equation holds only with respect to the tick-time write cursor, and
because the clamp admits delay lengths up to capacity-1 the write cursor can
reach a read cursor before the next tick (see the counterexample). -/
theorem read_indices_after_update (sampleRate : ℚ) (rnd : ℕ → ℚ) (k0 : ℕ)
    (st : Engine) (i : Fin 6) :
    ((updateDelayTimes sampleRate rnd k0 st).readIndices i : ℤ) =
      (((updateDelayTimes sampleRate rnd k0 st).writeIndex : ℤ) -
        ⌊(updateDelayTimes sampleRate rnd k0 st).delayTimes i⌋ + 16000) % 16000 ∧
    (updateDelayTimes sampleRate rnd k0 st).readIndices i < 16000 := by
  obtain ⟨hlo, hhi⟩ := delayTimes_bounds sampleRate rnd k0 st i
  have hd1 : 1 ≤ ⌊(updateDelayTimes sampleRate rnd k0 st).delayTimes i⌋ := by
    rw [Int.le_floor, Int.cast_one]
    exact hlo
  have hd2 : ⌊(updateDelayTimes sampleRate rnd k0 st).delayTimes i⌋ ≤ 15999 := by
    have h := le_trans (Int.floor_le (α := ℚ)
      ((updateDelayTimes sampleRate rnd k0 st).delayTimes i)) hhi
    exact_mod_cast h
  constructor
  · have hrfl : (updateDelayTimes sampleRate rnd k0 st).readIndices i =
        (st.writeIndex + 16000 -
          (⌊(updateDelayTimes sampleRate rnd k0 st).delayTimes i⌋).toNat) % 16000 := rfl
    have hw : (updateDelayTimes sampleRate rnd k0 st).writeIndex = st.writeIndex := rfl
    rw [hrfl, hw]
    have ht : (⌊(updateDelayTimes sampleRate rnd k0 st).delayTimes i⌋).toNat ≤
        st.writeIndex + 16000 := by omega
    push_cast [Nat.cast_sub ht]
    omega
  · exact Nat.mod_lt _ (by norm_num)

/-! ## Control snapshot -/

/-- C9: at every control tick, each control snapshot value equals the manual
set-point plus the corresponding CV input voltage divided by 10 (the
delay-time, mix and chaos controls have no CV input port, so their CV term
is absent), clamped to its documented valid range — delay time [0,1], spread
[0,1], probability shape [0,1], feedback [0,0.95], mix [0,1], chaos [0,1] —
and in particular each snapshot lies in its documented range; for mix and
chaos the code stores the pot directly, which coincides with the clamp for
pots within their configured ranges. -/
theorem updateControls_ranges (ins : Inputs) (st : Engine)
    (hm0 : 0 ≤ ins.potMix) (hm1 : ins.potMix ≤ 1)
    (hc0 : 0 ≤ ins.potChaos) (hc1 : ins.potChaos ≤ 1) :
    ((updateControls ins st).baseDelayTime = clamp ins.potTime 0 1 ∧
      (updateControls ins st).spreadAmount =
        clamp (ins.potSpread + ins.cvSpread / 10) 0 1 ∧
      (updateControls ins st).probabilityShape =
        clamp (ins.potProb + ins.cvProb / 10) 0 1 ∧
      (updateControls ins st).globalFeedback =
        clamp (ins.potFeedback + ins.cvFeedback / 10) 0 (95/100) ∧
      (updateControls ins st).dryWetMix = clamp ins.potMix 0 1 ∧
      (updateControls ins st).chaosAmount = clamp ins.potChaos 0 1) ∧
    (0 ≤ (updateControls ins st).baseDelayTime ∧
      (updateControls ins st).baseDelayTime ≤ 1) ∧
    (0 ≤ (updateControls ins st).spreadAmount ∧
      (updateControls ins st).spreadAmount ≤ 1) ∧
    (0 ≤ (updateControls ins st).probabilityShape ∧
      (updateControls ins st).probabilityShape ≤ 1) ∧
    (0 ≤ (updateControls ins st).globalFeedback ∧
      (updateControls ins st).globalFeedback ≤ 95/100) ∧
    (0 ≤ (updateControls ins st).dryWetMix ∧
      (updateControls ins st).dryWetMix ≤ 1) ∧
    (0 ≤ (updateControls ins st).chaosAmount ∧
      (updateControls ins st).chaosAmount ≤ 1) := by
  refine ⟨⟨rfl, rfl, rfl, rfl, ?_, ?_⟩, ⟨le_clamp _ _ _, clamp_le _ _ _ (by norm_num)⟩,
    ⟨le_clamp _ _ _, clamp_le _ _ _ (by norm_num)⟩,
    ⟨le_clamp _ _ _, clamp_le _ _ _ (by norm_num)⟩,
    ⟨le_clamp _ _ _, clamp_le _ _ _ (by norm_num)⟩, ⟨hm0, hm1⟩, ⟨hc0, hc1⟩⟩
  · exact (clamp_eq_self _ _ _ hm0 hm1).symm
  · exact (clamp_eq_self _ _ _ hc0 hc1).symm

/-! ## Quantum collapse -/

/-- C5: with the random source fixed (the draw `r` given explicitly), firing
the collapse trigger — the Schmitt trigger with low threshold 0.1 and high
threshold 2.0 fires when its armed (low) state sees a voltage at or above
the high threshold — sets exactly one buffer's target weight, that of the
uniformly drawn index `floor(r*6)`, to 0.7, sets every other buffer's target
weight to 0.3/(N-1) = 0.06, and sets the collapse indicator to 1 immediately
after. -/
theorem collapse_trigger_effect (trigVolt r : ℚ) (st : Engine)
    (harm : st.trigState = false) (hv : 2 ≤ trigVolt)
    (hr0 : 0 ≤ r) (hr1 : r < 1) :
    ∃ k : Fin 6, ((k : ℕ) : ℤ) = ⌊r * 6⌋ ∧
      (collapseStage trigVolt r st).targetWeights k = 7/10 ∧
      (∀ j : Fin 6, j ≠ k → (collapseStage trigVolt r st).targetWeights j = 3/50) ∧
      (collapseStage trigVolt r st).collapseLight = 1 := by
  have hfr : schmittProcess st.trigState trigVolt (1/10) 2 = (true, true) := by
    rw [harm]
    unfold schmittProcess
    simp [hv]
  have hcs : collapseStage trigVolt r st =
      handleQuantumCollapse r { st with trigState := true } := by
    simp only [collapseStage, hfr]
    exact if_pos trivial
  have h60 : (0:ℤ) ≤ ⌊r * 6⌋ := Int.floor_nonneg.mpr (by positivity)
  have h66 : ⌊r * 6⌋ < 6 := by
    rw [Int.floor_lt]
    push_cast
    nlinarith
  have hklt : (⌊r * 6⌋).toNat < 6 := by omega
  have hkeq : (((⟨(⌊r * 6⌋).toNat, hklt⟩ : Fin 6) : ℕ) : ℤ) = ⌊r * 6⌋ := by
    show (((⌊r * 6⌋).toNat : ℕ) : ℤ) = ⌊r * 6⌋
    exact Int.toNat_of_nonneg h60
  refine ⟨⟨(⌊r * 6⌋).toNat, hklt⟩, hkeq, ?_, ?_, ?_⟩
  · rw [hcs]
    show (if (((⟨(⌊r * 6⌋).toNat, hklt⟩ : Fin 6) : ℕ) : ℤ) = ⌊r * 6⌋ then (7:ℚ)/10
      else (1 - 7/10) / 5) = 7/10
    rw [if_pos hkeq]
  · intro j hj
    rw [hcs]
    show (if ((j : ℕ) : ℤ) = ⌊r * 6⌋ then (7:ℚ)/10 else (1 - 7/10) / 5) = 3/50
    rw [if_neg, show ((1:ℚ) - 7/10) / 5 = 3/50 by norm_num]
    intro hcontra
    apply hj
    apply Fin.ext
    have hkv : ((⟨(⌊r * 6⌋).toNat, hklt⟩ : Fin 6) : ℕ) = (⌊r * 6⌋).toNat := rfl
    omega
  · rw [hcs]
    rfl

section
attribute [local semireducible] Rat.add Rat.mul Rat.inv Rat.sub Rat.ofScientific

/-- Witness for C5: trigger voltage 5 on the armed fresh engine with random
draw 1/3 (dominant buffer 2). -/
theorem collapse_trigger_effect_witness :
    ∃ k : Fin 6, ((k : ℕ) : ℤ) = ⌊(1:ℚ)/3 * 6⌋ ∧
      (collapseStage 5 (1/3) initEngine).targetWeights k = 7/10 ∧
      (∀ j : Fin 6, j ≠ k →
        (collapseStage 5 (1/3) initEngine).targetWeights j = 3/50) ∧
      (collapseStage 5 (1/3) initEngine).collapseLight = 1 :=
  collapse_trigger_effect 5 (1/3) initEngine rfl (by decide) (by decide) (by decide)

end

/-! ## Collapse indicator decay -/

theorem decay_iterate (s x : ℚ) (n : ℕ) :
    (fun y => decayCollapseLight s y)^[n] x = (1 - 5/s)^n * x := by
  induction n with
  | zero => simp
  | succ n ih =>
    rw [Function.iterate_succ_apply', ih]
    unfold decayCollapseLight
    ring

/-- C6: starting from collapse indicator 1, after one second of samples at
sample rate R (R applications of `indicator -= indicator/R*5`, line 253) the
indicator equals `(1 - 5/R)^R`, which lies within `exp(-5) * 25/(R-5)` of
`exp(-5) ≈ 0.0067` for every rate R ≥ 100 — an R-uniform error bound that
formalizes "approximately exp(-5), independently of R". -/
theorem indicator_after_one_second (R : ℕ) (hR : 100 ≤ R) :
    (fun x => decayCollapseLight (R : ℚ) x)^[R] 1 = (1 - 5/(R:ℚ))^R ∧
    (((1 - 5/(R:ℚ))^R : ℚ) : ℝ) ≤ Real.exp (-5) ∧
    Real.exp (-5) * (1 - 25 / ((R:ℝ) - 5)) ≤ (((1 - 5/(R:ℚ))^R : ℚ) : ℝ) := by
  have hR0 : (0:ℝ) < (R:ℝ) := by
    have : (100:ℝ) ≤ (R:ℝ) := by exact_mod_cast hR
    linarith
  have hRne : (R:ℝ) ≠ 0 := ne_of_gt hR0
  have hR5 : (0:ℝ) < (R:ℝ) - 5 := by
    have : (100:ℝ) ≤ (R:ℝ) := by exact_mod_cast hR
    linarith
  have hcast : (((1 - 5/(R:ℚ))^R : ℚ) : ℝ) = (1 - 5/(R:ℝ))^R := by
    push_cast
    ring
  have hy1 : (5:ℝ)/(R:ℝ) ≤ 1/20 := by
    rw [div_le_div_iff hR0 (by norm_num)]
    have : (100:ℝ) ≤ (R:ℝ) := by exact_mod_cast hR
    linarith
  have hy0 : (0:ℝ) < 5/(R:ℝ) := by positivity
  have h1y : (0:ℝ) < 1 - 5/(R:ℝ) := by linarith
  refine ⟨by rw [decay_iterate, mul_one], ?_, ?_⟩
  · rw [hcast]
    have h1 : 1 - 5/(R:ℝ) ≤ Real.exp (-(5/(R:ℝ))) := by
      have := Real.add_one_le_exp (-(5/(R:ℝ)))
      linarith
    have h2 : (1 - 5/(R:ℝ))^R ≤ (Real.exp (-(5/(R:ℝ))))^R :=
      pow_le_pow_left (le_of_lt h1y) h1 R
    have h5 : (R:ℝ) * (5/(R:ℝ)) = 5 := by
      rw [mul_comm]
      exact div_mul_cancel₀ 5 hRne
    have h3 : (Real.exp (-(5/(R:ℝ))))^R = Real.exp (-5) := by
      rw [← Real.exp_nat_mul, mul_neg, h5]
    linarith [h2, le_of_eq h3]
  · rw [hcast]
    have hz0 : (0:ℝ) ≤ (5/(R:ℝ)) / (1 - 5/(R:ℝ)) := div_nonneg hy0.le h1y.le
    have hA : Real.exp (-((5/(R:ℝ)) / (1 - 5/(R:ℝ)))) ≤ 1 - 5/(R:ℝ) := by
      have h := Real.add_one_le_exp ((5/(R:ℝ)) / (1 - 5/(R:ℝ)))
      have hpos : (0:ℝ) < (5/(R:ℝ)) / (1 - 5/(R:ℝ)) + 1 := by linarith
      have h2 : (Real.exp ((5/(R:ℝ)) / (1 - 5/(R:ℝ))))⁻¹ ≤
          ((5/(R:ℝ)) / (1 - 5/(R:ℝ)) + 1)⁻¹ :=
        inv_le_inv_of_le hpos (by linarith)
      have h3 : ((5/(R:ℝ)) / (1 - 5/(R:ℝ)) + 1)⁻¹ = 1 - 5/(R:ℝ) := by
        rw [show (5/(R:ℝ)) / (1 - 5/(R:ℝ)) + 1 = (1 - 5/(R:ℝ))⁻¹ by
          field_simp]
        rw [inv_inv]
      rw [Real.exp_neg]
      rw [h3] at h2
      exact h2
    have hlow1 : Real.exp (-((R:ℝ) * ((5/(R:ℝ)) / (1 - 5/(R:ℝ))))) ≤
        (1 - 5/(R:ℝ))^R := by
      have h := pow_le_pow_left (Real.exp_nonneg _) hA R
      calc Real.exp (-((R:ℝ) * ((5/(R:ℝ)) / (1 - 5/(R:ℝ)))))
          = (Real.exp (-((5/(R:ℝ)) / (1 - 5/(R:ℝ)))))^R := by
            rw [← Real.exp_nat_mul]
            congr 1
            ring
        _ ≤ (1 - 5/(R:ℝ))^R := h
    have hRz : (R:ℝ) * ((5/(R:ℝ)) / (1 - 5/(R:ℝ))) = 5 + 25 / ((R:ℝ) - 5) := by
      have h1yne : 1 - 5/(R:ℝ) ≠ 0 := ne_of_gt h1y
      have hR5ne : (R:ℝ) - 5 ≠ 0 := ne_of_gt hR5
      field_simp
      ring
    have hlow2 : Real.exp (-5) * (1 - 25/((R:ℝ) - 5)) ≤
        Real.exp (-((R:ℝ) * ((5/(R:ℝ)) / (1 - 5/(R:ℝ))))) := by
      rw [hRz, neg_add, Real.exp_add]
      have h := Real.add_one_le_exp (-(25/((R:ℝ) - 5)))
      have hmul := mul_le_mul_of_nonneg_left (show 1 - 25/((R:ℝ) - 5) ≤
          Real.exp (-(25/((R:ℝ) - 5))) by linarith) (Real.exp_nonneg (-5))
      linarith
    linarith

section
attribute [local semireducible] Rat.add Rat.mul Rat.inv Rat.sub Rat.ofScientific

/-- Witness for C6 at R = 48000: the decayed indicator after one second at
48 kHz is `(1 - 5/48000)^48000`, within `exp(-5) * 25/47995` of `exp(-5)`. -/
theorem indicator_after_one_second_witness :
    (fun x => decayCollapseLight ((48000 : ℕ) : ℚ) x)^[48000] 1 =
      (1 - 5/((48000 : ℕ):ℚ))^48000 ∧
    (((1 - 5/((48000 : ℕ):ℚ))^48000 : ℚ) : ℝ) ≤ Real.exp (-5) ∧
    Real.exp (-5) * (1 - 25 / (((48000 : ℕ):ℝ) - 5)) ≤
      (((1 - 5/((48000 : ℕ):ℚ))^48000 : ℚ) : ℝ) :=
  indicator_after_one_second 48000 (by decide)

end

/-! ## Probability weight cycles -/

theorem upw_targetWeights_eq (e : ℚ → ℚ) (rnd : ℕ → ℚ) (st : Engine) :
    (updateProbabilityWeights e rnd st).targetWeights = fun i =>
      chaosAdded rnd (chaosOffset st) st.chaosAmount (preChaos e rnd st) i /
        ∑ j, chaosAdded rnd (chaosOffset st) st.chaosAmount (preChaos e rnd st) j := rfl

theorem upw_weightVelocity_eq (e : ℚ → ℚ) (rnd : ℕ → ℚ) (st : Engine) :
    (updateProbabilityWeights e rnd st).weightVelocity = fun i =>
      st.weightVelocity i * (9/10) +
        ((updateProbabilityWeights e rnd st).targetWeights i -
          st.probWeights i) * (1/10) := rfl

theorem upw_probWeights_eq (e : ℚ → ℚ) (rnd : ℕ → ℚ) (st : Engine) :
    (updateProbabilityWeights e rnd st).probWeights = fun i =>
      st.probWeights i +
        (updateProbabilityWeights e rnd st).weightVelocity i * (1/20) := rfl

/-- C2 (amended): for all shape and chaos values in [0,1]x[0,1] and uniform
draws in [0,1], from any state satisfying the weight-sum invariants
(non-negative target summing to 1, current summing to 1, velocity summing to
0 — all established at construction), every retarget+relax cycle
(`updateProbabilityWeights`) has strictly positive normalization divisors
(the peaked-distribution total, for any positive modelled exponential, and
the post-chaos weight sum), and afterwards the TARGET weight vector has
non-negative entries and, in the exact arithmetic of the model, the target
sum, the current-weight sum and the velocity sum are exactly 1, 1 and 0.
Unlike the original claim, non-negativity cannot be asserted of the CURRENT
weights: the velocity smoothing is underdamped and individual current
entries transiently undershoot 0 (see the counterexample). -/
theorem weight_cycle_invariants (e : ℚ → ℚ) (rnd : ℕ → ℚ) (st : Engine)
    (he : ∀ x, 0 < e x) (hrnd : ∀ n, 0 ≤ rnd n ∧ rnd n ≤ 1)
    (hsh0 : 0 ≤ st.probabilityShape) (hsh1 : st.probabilityShape ≤ 1)
    (hch0 : 0 ≤ st.chaosAmount) (hch1 : st.chaosAmount ≤ 1)
    (htw : ∀ i, 0 ≤ st.targetWeights i) (htsum : ∑ i, st.targetWeights i = 1)
    (hpsum : ∑ i, st.probWeights i = 1)
    (hvsum : ∑ i, st.weightVelocity i = 0) :
    (0 < peakedTotal e st.probabilityShape
        (wanderedPeak (rnd 0) st.chaosAmount st.peakCenter)) ∧
    (0 < ∑ i, chaosAdded rnd (chaosOffset st) st.chaosAmount
        (preChaos e rnd st) i) ∧
    (∀ i, 0 ≤ (updateProbabilityWeights e rnd st).targetWeights i) ∧
    (∑ i, (updateProbabilityWeights e rnd st).targetWeights i = 1) ∧
    (∑ i, (updateProbabilityWeights e rnd st).probWeights i = 1) ∧
    (∑ i, (updateProbabilityWeights e rnd st).weightVelocity i = 0) := by
  have hpt : 0 < peakedTotal e st.probabilityShape
      (wanderedPeak (rnd 0) st.chaosAmount st.peakCenter) :=
    Finset.sum_pos (fun i _ => he _) Finset.univ_nonempty
  have hu0 : 0 ≤ (1/2 - st.probabilityShape) * 2 ∨
      ¬ st.probabilityShape < 1/2 := by
    by_cases h : st.probabilityShape < 1/2
    · left; linarith
    · right; exact h
  have hw0 : ∀ i, 0 ≤ preChaos e rnd st i := by
    intro i
    unfold preChaos
    by_cases hc : st.probabilityShape < 1/2
    · rw [if_pos hc]
      unfold uniformityBlend
      have h1 : 0 ≤ 1 - (1/2 - st.probabilityShape) * 2 := by linarith
      have h2 := mul_nonneg h1 (htw i)
      have h3 : 0 ≤ (1/2 - st.probabilityShape) * 2 := by linarith
      linarith
    · rw [if_neg hc]
      exact le_of_lt (div_pos (he _) hpt)
  have hwsum : ∑ i, preChaos e rnd st i = 1 := by
    by_cases hc : st.probabilityShape < 1/2
    · simp only [preChaos, if_pos hc, uniformityBlend]
      rw [Finset.sum_add_distrib, ← Finset.mul_sum, htsum, Finset.sum_const,
        Finset.card_univ, Fintype.card_fin, nsmul_eq_mul]
      ring
    · simp only [preChaos, if_neg hc]
      rw [← Finset.sum_div]
      exact div_self (ne_of_gt hpt)
  have hmax : ∃ i, 1/6 ≤ preChaos e rnd st i := by
    by_contra hcon
    push_neg at hcon
    have hlt : ∑ i, preChaos e rnd st i < ∑ _i : Fin 6, (1:ℚ)/6 :=
      Finset.sum_lt_sum_of_nonempty Finset.univ_nonempty (fun i _ => hcon i)
    have h6 : (∑ _i : Fin 6, (1:ℚ)/6) = 1 := by
      rw [Finset.sum_const, Finset.card_univ, Fintype.card_fin, nsmul_eq_mul]
      norm_num
    rw [hwsum, h6] at hlt
    exact lt_irrefl 1 hlt
  have hpert : ∀ k : ℕ, -(1/20 : ℚ) ≤ (rnd k - 1/2) * st.chaosAmount * (1/10) := by
    intro k
    obtain ⟨h0, h1⟩ := hrnd k
    nlinarith
  have hca0 : ∀ i, 0 ≤ chaosAdded rnd (chaosOffset st) st.chaosAmount
      (preChaos e rnd st) i := fun i => le_clamp _ _ _
  obtain ⟨i0, hi0⟩ := hmax
  have hca_big : 7/60 ≤ chaosAdded rnd (chaosOffset st) st.chaosAmount
      (preChaos e rnd st) i0 := by
    unfold chaosAdded
    have h1 := hpert (chaosOffset st + (i0 : ℕ))
    calc (7:ℚ)/60 = min (7/60) 1 := by norm_num
      _ ≤ min (preChaos e rnd st i0 +
            (rnd (chaosOffset st + (i0:ℕ)) - 1/2) * st.chaosAmount * (1/10)) 1 :=
          min_le_min (by linarith) le_rfl
      _ ≤ clamp (preChaos e rnd st i0 +
            (rnd (chaosOffset st + (i0:ℕ)) - 1/2) * st.chaosAmount * (1/10)) 0 1 :=
          min_le_clamp _ _ _
  have hssum : 0 < ∑ i, chaosAdded rnd (chaosOffset st) st.chaosAmount
      (preChaos e rnd st) i := by
    have hle := Finset.single_le_sum
      (f := fun i => chaosAdded rnd (chaosOffset st) st.chaosAmount
        (preChaos e rnd st) i)
      (fun i _ => hca0 i) (Finset.mem_univ i0)
    linarith
  have htw'0 : ∀ i, 0 ≤ (updateProbabilityWeights e rnd st).targetWeights i := by
    intro i
    rw [upw_targetWeights_eq]
    exact div_nonneg (hca0 i) (le_of_lt hssum)
  have htw'sum : ∑ i, (updateProbabilityWeights e rnd st).targetWeights i = 1 := by
    rw [upw_targetWeights_eq]
    simp only []
    rw [← Finset.sum_div]
    exact div_self (ne_of_gt hssum)
  have hvel'sum : ∑ i, (updateProbabilityWeights e rnd st).weightVelocity i = 0 := by
    rw [upw_weightVelocity_eq]
    simp only []
    rw [Finset.sum_add_distrib, ← Finset.sum_mul, hvsum, ← Finset.sum_mul,
      Finset.sum_sub_distrib, htw'sum, hpsum]
    norm_num
  have hpw'sum : ∑ i, (updateProbabilityWeights e rnd st).probWeights i = 1 := by
    rw [upw_probWeights_eq]
    simp only []
    rw [Finset.sum_add_distrib, hpsum, ← Finset.sum_mul, hvel'sum]
    norm_num
  exact ⟨hpt, hssum, htw'0, htw'sum, hpw'sum, hvel'sum⟩

section
attribute [local semireducible] Rat.add Rat.mul Rat.inv Rat.sub Rat.ofScientific

/-- Witness for C2 (amended) at the freshly constructed engine, a constant
positive modelled exponential and constant draws 1/2. -/
theorem weight_cycle_invariants_witness :
    (0 < peakedTotal (fun _ => (1:ℚ)) initEngine.probabilityShape
        (wanderedPeak ((fun _ : ℕ => (1:ℚ)/2) 0) initEngine.chaosAmount
          initEngine.peakCenter)) ∧
    (0 < ∑ i, chaosAdded (fun _ : ℕ => (1:ℚ)/2) (chaosOffset initEngine)
        initEngine.chaosAmount
        (preChaos (fun _ => (1:ℚ)) (fun _ : ℕ => (1:ℚ)/2) initEngine) i) ∧
    (∀ i, 0 ≤ (updateProbabilityWeights (fun _ => (1:ℚ))
        (fun _ : ℕ => (1:ℚ)/2) initEngine).targetWeights i) ∧
    (∑ i, (updateProbabilityWeights (fun _ => (1:ℚ))
        (fun _ : ℕ => (1:ℚ)/2) initEngine).targetWeights i = 1) ∧
    (∑ i, (updateProbabilityWeights (fun _ => (1:ℚ))
        (fun _ : ℕ => (1:ℚ)/2) initEngine).probWeights i = 1) ∧
    (∑ i, (updateProbabilityWeights (fun _ => (1:ℚ))
        (fun _ : ℕ => (1:ℚ)/2) initEngine).weightVelocity i = 0) :=
  weight_cycle_invariants (fun _ => 1) (fun _ => 1/2) initEngine
    (fun _ => one_pos)
    (fun _ => ⟨(by decide : (0:ℚ) ≤ 1/2), (by decide : (1:ℚ)/2 ≤ 1)⟩)
    (by decide) (by decide) (by decide) (by decide)
    (by decide) (by decide) (by decide) (by decide)

set_option maxRecDepth 400000 in
/-- C2 counterexample: from the freshly constructed engine with probability
shape 0.4995 and chaos 1 (both in range) and in-range random draws, after 60
retarget+relax cycles the CURRENT weight of buffer 5 is negative (about
-0.006): the claim that the current weight vector has non-negative entries
after every cycle is false. -/
theorem current_weight_goes_negative : (weightTrace 60).probWeights 5 < 0 := by
  decide

end

/-! ## Persistence -/

/-- C7: persistence round-trips exactly: exporting the six current
probability weights, arbitrarily replacing the engine state, then importing
the exported vector leaves both the current and the target weight vectors
exactly equal to the exported vector. -/
theorem persist_round_trip (st st2 : Engine) :
    (dataFromJson (some ((dataToJson st).map some)) st2).probWeights =
      st.probWeights ∧
    (dataFromJson (some ((dataToJson st).map some)) st2).targetWeights =
      st.probWeights := by
  constructor <;> funext i <;> fin_cases i <;> rfl

/-- C8: importing persisted state whose weight vector is missing (no
`probWeights` value in the JSON object) or malformed (a non-array value, on
which every array lookup is null) leaves the engine state — in particular
the current weights — entirely untouched. -/
theorem import_missing_untouched (st : Engine) :
    dataFromJson none st = st ∧ dataFromJson (some []) st = st :=
  ⟨rfl, rfl⟩

/-! ## Frame conditions of a quiet process step -/

/-- C10 (amended): on every process call that is neither a control tick (the
every-64th-sample gate) nor a collapse-trigger firing, the probability
weight vectors (current, target, velocity), the delay time vector, the read
indices, the control snapshot values, the feedback levels and the peak
center are all unchanged; the modified state is confined to the delay buffer
contents, the entanglement values, the collapse indicator, the lights, the
output voltage, the write index, and — beyond the original claim's list —
the control-rate divider counter (which increments on every such call) and
the trigger's hysteresis memory. -/
theorem process_offtick_frame (e : ℚ → ℚ) (ins : Inputs) (rnd : ℕ → ℚ)
    (st : Engine) (htick : st.controlDivider + 1 < 64)
    (hfire : (schmittProcess st.trigState ins.trigVolt (1/10) 2).1 = false) :
    (process e ins rnd st).probWeights = st.probWeights ∧
    (process e ins rnd st).targetWeights = st.targetWeights ∧
    (process e ins rnd st).weightVelocity = st.weightVelocity ∧
    (process e ins rnd st).delayTimes = st.delayTimes ∧
    (process e ins rnd st).readIndices = st.readIndices ∧
    (process e ins rnd st).baseDelayTime = st.baseDelayTime ∧
    (process e ins rnd st).spreadAmount = st.spreadAmount ∧
    (process e ins rnd st).probabilityShape = st.probabilityShape ∧
    (process e ins rnd st).globalFeedback = st.globalFeedback ∧
    (process e ins rnd st).dryWetMix = st.dryWetMix ∧
    (process e ins rnd st).chaosAmount = st.chaosAmount ∧
    (process e ins rnd st).feedbackLevels = st.feedbackLevels ∧
    (process e ins rnd st).peakCenter = st.peakCenter ∧
    (process e ins rnd st).controlDivider = st.controlDivider + 1 := by
  have h64 : ¬ 64 ≤ st.controlDivider + 1 := by omega
  have h1 : process e ins rnd st =
      audioStage ins.audioIn (lightStage ins.sampleRate (collapseStage ins.trigVolt
        (rnd (tickRnds ins st))
        { st with controlDivider := st.controlDivider + 1 })) := by
    unfold process tickStage
    rw [if_neg h64]
  have h2 : collapseStage ins.trigVolt (rnd (tickRnds ins st))
      { st with controlDivider := st.controlDivider + 1 } =
      { st with
        controlDivider := st.controlDivider + 1
        trigState := (schmittProcess st.trigState ins.trigVolt (1/10) 2).2 } := by
    unfold collapseStage
    dsimp only
    rw [hfire]
    simp
  rw [h1, h2]
  exact ⟨rfl, rfl, rfl, rfl, rfl, rfl, rfl, rfl, rfl, rfl, rfl, rfl, rfl, rfl⟩

section
attribute [local semireducible] Rat.add Rat.mul Rat.inv Rat.sub Rat.ofScientific

/-- C10 counterexample: a process call that is neither a control tick nor a
collapse-trigger firing still changes state outside the claim's "only
modified" list: the control-rate divider counter advances from 0 to 1. -/
theorem offtick_changes_divider :
    (schmittProcess initEngine.trigState insQuiet.trigVolt (1/10) 2).1 = false ∧
    initEngine.controlDivider + 1 < 64 ∧
    (process (fun _ => 1) insQuiet (fun _ => 1/2) initEngine).controlDivider ≠
      initEngine.controlDivider := by
  decide

/-- Witness for C10 (amended): a quiet step (no tick, no trigger) from the
freshly constructed engine. -/
theorem process_offtick_frame_witness :
    (process (fun _ => 1) insQuiet (fun _ => 1/2) initEngine).probWeights =
      initEngine.probWeights ∧
    (process (fun _ => 1) insQuiet (fun _ => 1/2) initEngine).targetWeights =
      initEngine.targetWeights ∧
    (process (fun _ => 1) insQuiet (fun _ => 1/2) initEngine).weightVelocity =
      initEngine.weightVelocity ∧
    (process (fun _ => 1) insQuiet (fun _ => 1/2) initEngine).delayTimes =
      initEngine.delayTimes ∧
    (process (fun _ => 1) insQuiet (fun _ => 1/2) initEngine).readIndices =
      initEngine.readIndices ∧
    (process (fun _ => 1) insQuiet (fun _ => 1/2) initEngine).baseDelayTime =
      initEngine.baseDelayTime ∧
    (process (fun _ => 1) insQuiet (fun _ => 1/2) initEngine).spreadAmount =
      initEngine.spreadAmount ∧
    (process (fun _ => 1) insQuiet (fun _ => 1/2) initEngine).probabilityShape =
      initEngine.probabilityShape ∧
    (process (fun _ => 1) insQuiet (fun _ => 1/2) initEngine).globalFeedback =
      initEngine.globalFeedback ∧
    (process (fun _ => 1) insQuiet (fun _ => 1/2) initEngine).dryWetMix =
      initEngine.dryWetMix ∧
    (process (fun _ => 1) insQuiet (fun _ => 1/2) initEngine).chaosAmount =
      initEngine.chaosAmount ∧
    (process (fun _ => 1) insQuiet (fun _ => 1/2) initEngine).feedbackLevels =
      initEngine.feedbackLevels ∧
    (process (fun _ => 1) insQuiet (fun _ => 1/2) initEngine).peakCenter =
      initEngine.peakCenter ∧
    (process (fun _ => 1) insQuiet (fun _ => 1/2) initEngine).controlDivider =
      initEngine.controlDivider + 1 :=
  process_offtick_frame (fun _ => 1) insQuiet (fun _ => 1/2) initEngine
    (by decide) (by decide)

end

section
attribute [local semireducible] Rat.add Rat.mul Rat.inv Rat.sub Rat.ofScientific

/-- Witness for C1: a quiet 5 V step from the fresh engine at the default
mix of 1/2. -/
theorem process_output_bounded_witness :
    (∃ wet mix, -10 ≤ wet ∧ wet ≤ 10 ∧ 0 ≤ mix ∧ mix ≤ 1 ∧
      (process (fun _ => (1:ℚ)) insQuiet (fun _ => 1/2) initEngine).output =
        insQuiet.audioIn * (1 - mix) + wet * mix) ∧
    -10 ≤ (process (fun _ => (1:ℚ)) insQuiet (fun _ => 1/2) initEngine).output ∧
    (process (fun _ => (1:ℚ)) insQuiet (fun _ => 1/2) initEngine).output ≤ 10 :=
  process_output_bounded (fun _ => 1) insQuiet (fun _ => 1/2) initEngine
    (by decide) (by decide) (by decide) (by decide) (by decide) (by decide)

/-- Witness for C9: the quiet frame's default pots with no CV. -/
theorem updateControls_ranges_witness :
    ((updateControls insQuiet initEngine).baseDelayTime =
        clamp insQuiet.potTime 0 1 ∧
      (updateControls insQuiet initEngine).spreadAmount =
        clamp (insQuiet.potSpread + insQuiet.cvSpread / 10) 0 1 ∧
      (updateControls insQuiet initEngine).probabilityShape =
        clamp (insQuiet.potProb + insQuiet.cvProb / 10) 0 1 ∧
      (updateControls insQuiet initEngine).globalFeedback =
        clamp (insQuiet.potFeedback + insQuiet.cvFeedback / 10) 0 (95/100) ∧
      (updateControls insQuiet initEngine).dryWetMix =
        clamp insQuiet.potMix 0 1 ∧
      (updateControls insQuiet initEngine).chaosAmount =
        clamp insQuiet.potChaos 0 1) ∧
    (0 ≤ (updateControls insQuiet initEngine).baseDelayTime ∧
      (updateControls insQuiet initEngine).baseDelayTime ≤ 1) ∧
    (0 ≤ (updateControls insQuiet initEngine).spreadAmount ∧
      (updateControls insQuiet initEngine).spreadAmount ≤ 1) ∧
    (0 ≤ (updateControls insQuiet initEngine).probabilityShape ∧
      (updateControls insQuiet initEngine).probabilityShape ≤ 1) ∧
    (0 ≤ (updateControls insQuiet initEngine).globalFeedback ∧
      (updateControls insQuiet initEngine).globalFeedback ≤ 95/100) ∧
    (0 ≤ (updateControls insQuiet initEngine).dryWetMix ∧
      (updateControls insQuiet initEngine).dryWetMix ≤ 1) ∧
    (0 ≤ (updateControls insQuiet initEngine).chaosAmount ∧
      (updateControls insQuiet initEngine).chaosAmount ≤ 1) :=
  updateControls_ranges insQuiet initEngine
    (by decide) (by decide) (by decide) (by decide)

/-- C3 counterexample: with maximal delay settings, buffer 5's delay is
clamped to 15999 = capacity-1 at the control tick; one audio sample later
the write cursor has advanced onto buffer 5's stale read cursor — a
same-sample read/write collision — and the claimed cursor equation fails for
the current write index. -/
theorem read_cursor_collision :
    stColl.delayTimes 5 = 15999 ∧
    stColl1.readIndices 5 = stColl1.writeIndex ∧
    ((stColl1.readIndices 5 : ℤ) ≠
      ((stColl1.writeIndex : ℤ) - ⌊stColl1.delayTimes 5⌋ + 16000) % 16000) := by
  decide

/-- C4 counterexample: at base delay 1, full spread, zero chaos, 48 kHz and
center draws (zero jitter), the code computes buffer 1's delay from the
clamped `maxDelaySamples = 15999`, giving 3207.8 samples, while the claim's
formula — `maxSamples` mapped through 0..2000 ms at the sample rate with no
clamp of `maxSamples` itself — gives 15999 after the final clamp. -/
theorem delay_formula_mismatch :
    (updateDelayTimes 48000 (fun _ => 1/2) 0 stMaxDelay).delayTimes 1 = 16039/5 ∧
    specDelayTime 48000 stMaxDelay.baseDelayTime stMaxDelay.spreadAmount
      stMaxDelay.chaosAmount (fun _ => 1/2) 0 1 = 15999 ∧
    (updateDelayTimes 48000 (fun _ => 1/2) 0 stMaxDelay).delayTimes 1 ≠
      specDelayTime 48000 stMaxDelay.baseDelayTime stMaxDelay.spreadAmount
        stMaxDelay.chaosAmount (fun _ => 1/2) 0 1 := by
  decide

end

end QSD
